import Mathlib

/-
Shallow embedding of the voice-dictator repository (src/dictator.py and
src/dictator_app.py) for checking the natural-language specification.

The two Python files share the same key-event state machine (on_press and
on_release are line-for-line identical up to the identity of the hold key)
and the same start_recording control flow; dictator_app.py additionally has
a duration gate, an energy gate and a bounded history in stop_recording.
We embed the richer dictator_app.py variant; every claim about the key
handlers therefore covers both files.

Floating point is modelled by exact rationals: the source constants 0.5 and
0.001 are the rationals 1/2 and 1/1000, and every comparison in the gated
pipeline is between values these constants generate exactly.  The numpy
expression sqrt(mean(x**2)) < 0.001 is embedded as mean(x**2) < (1/1000)^2,
which is equivalent because sqrt is monotone and both sides are nonnegative;
the lemma rms_gate_iff below proves this equivalence against Real.sqrt.
-/

deriving instance DecidableEq for Except

namespace VoiceDictator

/-- Configuration constant SAMPLE_RATE = 16000 from both source files. -/
def SAMPLE_RATE : ℚ := 16000

/-- Configuration constant MAX_HISTORY = 10 from dictator_app.py. -/
def MAX_HISTORY : Nat := 10

/-- Configuration constant MIN_AUDIO_DURATION = 0.5 from dictator_app.py. -/
def MIN_AUDIO_DURATION : ℚ := 1 / 2

/-- Configuration constant MIN_AUDIO_ENERGY = 0.001 from dictator_app.py. -/
def MIN_AUDIO_ENERGY : ℚ := 1 / 1000

/-- The recording mode of the spec, derived from the globals of the source:
Idle when recording is False, Momentary when recording and not toggle_mode,
Continuous when recording and toggle_mode. -/
inductive Mode
  | Idle
  | Momentary
  | Continuous
deriving DecidableEq

/-- The keys the handlers distinguish: Key.shift, the HOLD_KEY
(Option in dictator.py, Control in dictator_app.py), and any other key. -/
inductive PKey
  | shift
  | hold
  | other
deriving DecidableEq

/-- A raw key event as delivered by the pynput listener. -/
inductive Event
  | press (k : PKey)
  | release (k : PKey)
deriving DecidableEq

/-- The global mutable state of the source: the booleans recording,
toggle_mode and shift_held, the chunk list audio_data (each chunk a list of
float samples, modelled as rationals), and the history deque of
(timestamp, text) pairs from dictator_app.py.  The fields streams and stops
are instrumentation: streams counts currently open input streams (incremented
by a successful sd.InputStream open, decremented by stream.close) and stops
counts completed stop actions, so that session and stop-count claims can be
stated. -/
structure AppState where
  recording : Bool
  toggle_mode : Bool
  shift_held : Bool
  audio_data : List (List ℚ)
  streams : Nat
  stops : Nat
  history : List (String × String)
deriving DecidableEq

/-- The state at process start: all flags False, empty buffer and history. -/
def initState : AppState :=
  { recording := false, toggle_mode := false, shift_held := false,
    audio_data := [], streams := 0, stops := 0, history := [] }

/-- The recording mode encoded by the globals recording and toggle_mode. -/
def mode (s : AppState) : Mode :=
  if s.recording then
    (if s.toggle_mode then Mode.Continuous else Mode.Momentary)
  else Mode.Idle

/-- Outcome of a start_recording call: started on success, alreadyRecording
for the early return when the recording flag is set, deviceError when
opening the input stream raises (DeviceUnavailable). -/
inductive StartOutcome
  | started
  | alreadyRecording
  | deviceError
deriving DecidableEq

/-- start_recording from dictator_app.py lines 64 to 84 (identical control
flow in dictator.py lines 38 to 57).  The recording flag is set and the
buffer cleared BEFORE the input stream is opened; deviceOk = false models
sd.InputStream raising, in which case the exception propagates and the
already mutated globals stay as they are (no handler exists in the source). -/
def start_recording (deviceOk : Bool) (s : AppState) : StartOutcome × AppState :=
  if s.recording then (StartOutcome.alreadyRecording, s)
  else
    let s1 : AppState := { s with recording := true, audio_data := [] }
    if deviceOk then
      (StartOutcome.started, { s1 with streams := s1.streams + 1 })
    else (StartOutcome.deviceError, s1)

/-- Result of one stop_recording call, naming the early returns of
dictator_app.py lines 87 to 137: notRecording for the guard at line 89,
emptyBuffer for the empty chunk list at line 97, tooShort for the duration
gate, noSound for the energy gate, noSpeech for an empty trimmed
transcription, and pasted for an accepted one. -/
inductive StopResult
  | notRecording
  | emptyBuffer
  | tooShort
  | noSound
  | noSpeech
  | pasted (text : String)
deriving DecidableEq

/-- Externally visible result-sink effects of stop_recording, in program
order: the history.appendleft at line 127, the pyperclip.copy at line 130,
and the simulated Cmd+V keystrokes at lines 132 to 135. -/
inductive Emission
  | histAppend (ts text : String)
  | clipboardSet (text : String)
  | pasteKeystroke
deriving DecidableEq

/-- Python str.isspace characters relevant to str.strip on ASCII text:
space, tab, newline, carriage return, vertical tab and form feed. -/
def isPySpace (c : Char) : Bool :=
  c == ' ' || c == '\t' || c == '\n' || c == '\r' ||
    c == Char.ofNat 11 || c == Char.ofNat 12

/-- Python str.strip on a character list: drop whitespace from the front,
then from the back (implemented by reversing). -/
def stripChars (l : List Char) : List Char :=
  ((l.dropWhile isPySpace).reverse.dropWhile isPySpace).reverse

/-- Python str.strip, the text.strip() of stop_recording. -/
def pyStrip (s : String) : String :=
  String.mk (stripChars s.data)

/-- Sum of squares of a sample list, the numpy audio ** 2 summed. -/
def sqSum (xs : List ℚ) : ℚ :=
  xs.foldr (fun x acc => x * x + acc) 0

/-- Mean of squares of a sample list, the numpy np.mean(audio ** 2). -/
def meanSq (xs : List ℚ) : ℚ :=
  sqSum xs / (xs.length : ℚ)

/-- stop_recording from dictator_app.py lines 87 to 137.  The engine
argument is the external model.transcribe call; an Except.error result
models the engine raising, and because the source has no try/except the
error value propagates out of the function (third component: Except.error).
The returned triple is (new global state, outcome or uncaught error,
result-sink emissions in program order).  UI-only effects (prints,
update_icon, update_menu) are omitted. -/
def stop_recording (engine : List ℚ → Except String String) (now : String)
    (s : AppState) : AppState × Except String StopResult × List Emission :=
  if s.recording = false then (s, Except.ok StopResult.notRecording, [])
  else
    let s2 : AppState :=
      { s with recording := false, streams := s.streams - 1, stops := s.stops + 1 }
    if s2.audio_data.isEmpty then (s2, Except.ok StopResult.emptyBuffer, [])
    else
      let samples : List ℚ := s2.audio_data.flatten
      if (samples.length : ℚ) / SAMPLE_RATE < MIN_AUDIO_DURATION then
        (s2, Except.ok StopResult.tooShort, [])
      else if meanSq samples < MIN_AUDIO_ENERGY ^ 2 then
        (s2, Except.ok StopResult.noSound, [])
      else
        match engine samples with
        | Except.error err => (s2, Except.error err, [])
        | Except.ok raw =>
          let text := pyStrip raw
          if text = "" then (s2, Except.ok StopResult.noSpeech, [])
          else
            ({ s2 with history := ((now, text) :: s2.history).take MAX_HISTORY },
              Except.ok (StopResult.pasted text),
              [Emission.histAppend now text, Emission.clipboardSet text,
                Emission.pasteKeystroke])

/-- clear_history from dictator_app.py lines 204 to 206. -/
def clear_history (s : AppState) : AppState :=
  { s with history := [] }

/-- on_press from dictator_app.py lines 213 to 230 (identical in
dictator.py lines 94 to 112).  A shift press sets shift_held; a hold-key
press stops a continuous recording if toggle_mode, else arms toggle_mode
and starts if shift is held, else starts plain.  The stop dispatched on the
toggle branch runs in a spawned thread in the source; it is sequenced here,
matching the sequential view of the state it mutates. -/
def on_press (engine : List ℚ → Except String String) (now : String)
    (k : PKey) (s : AppState) : AppState :=
  let s1 := if k = PKey.shift then { s with shift_held := true } else s
  if k = PKey.hold then
    if s1.toggle_mode then
      (stop_recording engine now { s1 with toggle_mode := false }).1
    else if s1.shift_held then
      (start_recording true { s1 with toggle_mode := true }).2
    else
      (start_recording true s1).2
  else s1

/-- on_release from dictator_app.py lines 233 to 240 (identical in
dictator.py lines 115 to 122).  A shift release clears shift_held; a
hold-key release stops only when neither toggle_mode nor shift_held. -/
def on_release (engine : List ℚ → Except String String) (now : String)
    (k : PKey) (s : AppState) : AppState :=
  let s1 := if k = PKey.shift then { s with shift_held := false } else s
  if k = PKey.hold ∧ s1.toggle_mode = false ∧ s1.shift_held = false then
    (stop_recording engine now s1).1
  else s1

/-- One key event routed to the matching handler. -/
def step (engine : List ℚ → Except String String) (now : String)
    (e : Event) (s : AppState) : AppState :=
  match e with
  | Event.press k => on_press engine now k s
  | Event.release k => on_release engine now k s

/-- A whole key-event stream folded through the handlers. -/
def run (engine : List ℚ → Except String String) (now : String)
    (es : List Event) (s : AppState) : AppState :=
  es.foldl (fun t e => step engine now e t) s

/-- The TranscriptionResult record of the spec: text plus accepted flag. -/
structure TranscriptionResult where
  text : String
  accepted : Bool
deriving DecidableEq

/-- The TranscriptionResult read off one stop_recording outcome: accepted
exactly on the pasted branch, every other branch (including an uncaught
engine error) is rejected with empty text. -/
def resultOf : Except String StopResult → TranscriptionResult
  | Except.ok (StopResult.pasted t) => { text := t, accepted := true }
  | _ => { text := "", accepted := false }

/-- Session-count invariant: the number of open input streams is 1 exactly
when the recording flag is set (holds in every reachable state under
successful device opens). -/
def Inv (s : AppState) : Prop :=
  s.streams = if s.recording then 1 else 0

/-- A well-formed history entry: nonempty text that equals its own strip. -/
def goodEntryB (p : String × String) : Bool :=
  (p.2 != "") && (pyStrip p.2 == p.2)

/-- A trivial engine (always transcribes to the empty string), used to
instantiate theorems at concrete inputs. -/
def engO : List ℚ → Except String String := fun _ => Except.ok ""

/-- A concrete state in Continuous mode with one open capture session. -/
def contSt : AppState :=
  { recording := true, toggle_mode := true, shift_held := false,
    audio_data := [], streams := 1, stops := 0, history := [] }

/-- A concrete state in Momentary mode with shift held and one open
capture session. -/
def momSt : AppState :=
  { recording := true, toggle_mode := false, shift_held := true,
    audio_data := [], streams := 1, stops := 0, history := [] }

/-- A concrete recording state holding 4800 samples (0.3 s at 16 kHz). -/
def recShort : AppState :=
  { initState with
    recording := true, streams := 1,
    audio_data := [List.replicate 4800 (1 : ℚ)] }

/-- A concrete recording state holding a short all-zero buffer. -/
def recZero : AppState :=
  { initState with
    recording := true, streams := 1, audio_data := [[0, 0, 0]] }

/-- A concrete recording state holding 8000 unit samples (0.5 s at 16 kHz,
mean square 1): passes both gates. -/
def recOK : AppState :=
  { initState with
    recording := true, streams := 1,
    audio_data := [List.replicate 8000 (1 : ℚ)] }

/-- A concrete recording state holding a single sample. -/
def recTiny : AppState :=
  { initState with recording := true, streams := 1, audio_data := [[1]] }

/-- A concrete state with one well-formed history entry. -/
def histSt : AppState :=
  { initState with history := [("09:00 AM", "hi")] }

/- Helper lemmas, shared by the claim theorems below. -/

theorem length_dropWhile_le' (p : Char → Bool) (l : List Char) :
    (l.dropWhile p).length ≤ l.length := by
  induction l with
  | nil => simp
  | cons x xs ih =>
    rw [List.dropWhile_cons]
    by_cases h : p x = true
    · simp only [h, if_true]
      exact Nat.le_trans ih (Nat.le_succ _)
    · simp [h]

theorem dropWhile_idem (p : Char → Bool) (l : List Char) :
    List.dropWhile p (List.dropWhile p l) = List.dropWhile p l := by
  induction l with
  | nil => simp
  | cons x xs ih =>
    rw [List.dropWhile_cons]
    by_cases h : p x = true
    · simpa [h] using ih
    · simp [List.dropWhile_cons, h]

theorem dropWhile_append_last (p : Char → Bool) (x : Char) (hx : p x = false)
    (ys : List Char) :
    ∃ zs, List.dropWhile p (ys ++ [x]) = zs ++ [x] := by
  induction ys with
  | nil => exact ⟨[], by simp [List.dropWhile_cons, hx]⟩
  | cons y ys ih =>
    by_cases h : p y = true
    · simpa [List.dropWhile_cons, h] using ih
    · exact ⟨y :: ys, by simp [List.dropWhile_cons, h]⟩

theorem dropWhile_head_false (p : Char → Bool) (x : Char) (xs : List Char)
    (h : List.dropWhile p (x :: xs) = x :: xs) : p x = false := by
  by_contra hpx
  have hx : p x = true := by
    cases hcases : p x
    · exact absurd hcases hpx
    · rfl
  rw [List.dropWhile_cons, if_pos hx] at h
  have hlen : (List.dropWhile p xs).length ≤ xs.length := length_dropWhile_le' p xs
  rw [h] at hlen
  simp at hlen

theorem dropWhile_reverse_fix (p : Char → Bool) (u : List Char)
    (hu : List.dropWhile p u = u) :
    List.dropWhile p ((List.dropWhile p u.reverse).reverse) =
      (List.dropWhile p u.reverse).reverse := by
  cases u with
  | nil => simp
  | cons x xs =>
    have hx : p x = false := dropWhile_head_false p x xs hu
    have hrev : (x :: xs).reverse = xs.reverse ++ [x] := by simp
    obtain ⟨zs, hzs⟩ := dropWhile_append_last p x hx xs.reverse
    rw [hrev, hzs]
    simp [List.dropWhile_cons, hx]

theorem stripChars_idem (l : List Char) :
    stripChars (stripChars l) = stripChars l := by
  unfold stripChars
  set p := isPySpace
  set u := List.dropWhile p l with hu_def
  have hu : List.dropWhile p u = u := dropWhile_idem p l
  have h1 : List.dropWhile p ((List.dropWhile p u.reverse).reverse) =
      (List.dropWhile p u.reverse).reverse := dropWhile_reverse_fix p u hu
  rw [h1]
  rw [List.reverse_reverse]
  rw [dropWhile_idem]

theorem pyStrip_idem (s : String) : pyStrip (pyStrip s) = pyStrip s := by
  unfold pyStrip
  exact congrArg String.mk (stripChars_idem s.data)

theorem sqSum_nonneg (xs : List ℚ) : 0 ≤ sqSum xs := by
  induction xs with
  | nil => simp [sqSum]
  | cons x xs ih =>
    have : 0 ≤ x * x := mul_self_nonneg x
    simp only [sqSum, List.foldr_cons]
    have ih' : 0 ≤ xs.foldr (fun x acc => x * x + acc) 0 := ih
    linarith

theorem sqSum_replicate (n : Nat) (x : ℚ) :
    sqSum (List.replicate n x) = (n : ℚ) * (x * x) := by
  induction n with
  | zero => simp [sqSum]
  | succ m ih =>
    simp only [List.replicate_succ, sqSum, List.foldr_cons] at *
    rw [ih]
    push_cast
    ring

theorem sqSum_eq_zero (xs : List ℚ) (h : ∀ x ∈ xs, x = 0) : sqSum xs = 0 := by
  induction xs with
  | nil => simp [sqSum]
  | cons x xs ih =>
    have hx : x = 0 := h x (List.mem_cons_self x xs)
    have hxs : ∀ y ∈ xs, y = 0 := fun y hy => h y (List.mem_cons_of_mem x hy)
    simp only [sqSum, List.foldr_cons] at *
    rw [ih hxs, hx]
    ring

theorem meanSq_nonneg (xs : List ℚ) : 0 ≤ meanSq xs := by
  unfold meanSq
  apply div_nonneg (sqSum_nonneg xs)
  exact_mod_cast Nat.zero_le _

/-- Justification of the energy-gate embedding: for a nonnegative rational
mean of squares m and positive threshold t, the source comparison
sqrt(m) < t (over the reals) is exactly m < t ^ 2 (over the rationals). -/
theorem rms_gate_iff (m t : ℚ) (ht : 0 < t) :
    (Real.sqrt (m : ℝ) < (t : ℝ)) ↔ m < t ^ 2 := by
  rw [Real.sqrt_lt' (by exact_mod_cast ht)]
  constructor
  · intro h
    exact_mod_cast h
  · intro h
    exact_mod_cast h

theorem mode_continuous_iff (s : AppState) :
    mode s = Mode.Continuous ↔ s.recording = true ∧ s.toggle_mode = true := by
  unfold mode
  cases hr : s.recording <;> cases ht : s.toggle_mode <;> simp

theorem stop_recording_not_recording (engine : List ℚ → Except String String)
    (now : String) (s : AppState) (h : s.recording = false) :
    stop_recording engine now s = (s, Except.ok StopResult.notRecording, []) := by
  unfold stop_recording
  rw [h]
  simp

theorem stop_recording_flags (engine : List ℚ → Except String String)
    (now : String) (s : AppState) (h : s.recording = true) :
    ((stop_recording engine now s).1).recording = false ∧
      ((stop_recording engine now s).1).toggle_mode = s.toggle_mode ∧
      ((stop_recording engine now s).1).shift_held = s.shift_held ∧
      ((stop_recording engine now s).1).streams = s.streams - 1 ∧
      ((stop_recording engine now s).1).stops = s.stops + 1 ∧
      ((stop_recording engine now s).1).audio_data = s.audio_data := by
  unfold stop_recording
  rw [h]
  simp only [show (true = false) = False from by simp, if_false]
  repeat' split
  all_goals exact ⟨rfl, rfl, rfl, rfl, rfl, rfl⟩

theorem start_recording_fields (d : Bool) (s : AppState) :
    (((start_recording d s).2).history = s.history) ∧
      (((start_recording d s).2).toggle_mode = s.toggle_mode) ∧
      (((start_recording d s).2).shift_held = s.shift_held) ∧
      (((start_recording d s).2).stops = s.stops) := by
  unfold start_recording
  repeat' split
  all_goals exact ⟨rfl, rfl, rfl, rfl⟩

theorem start_recording_inv (s : AppState) (h : Inv s) :
    Inv ((start_recording true s).2) := by
  unfold Inv at *
  cases hr : s.recording
  · rw [hr] at h
    rw [if_neg (by simp)] at h
    simp [start_recording, hr, h]
  · rw [hr] at h
    rw [if_pos rfl] at h
    simp [start_recording, hr, h]

theorem stop_recording_inv (engine : List ℚ → Except String String)
    (now : String) (s : AppState) (h : Inv s) :
    Inv ((stop_recording engine now s).1) := by
  cases hr : s.recording
  · rw [stop_recording_not_recording engine now s hr]
    exact h
  · obtain ⟨h1, _, _, h4, _, _⟩ := stop_recording_flags engine now s hr
    unfold Inv at *
    rw [hr, if_pos rfl] at h
    rw [h1, h4, h]
    simp

theorem step_inv (engine : List ℚ → Except String String) (now : String)
    (e : Event) (s : AppState) (h : Inv s) : Inv (step engine now e s) := by
  have hshift_t : Inv { s with shift_held := true } := h
  have hshift_f : Inv { s with shift_held := false } := h
  cases e with
  | press k =>
    show Inv (on_press engine now k s)
    unfold on_press
    cases k with
    | shift =>
      simp only [show (PKey.shift = PKey.shift) = True from by simp,
        show (PKey.shift = PKey.hold) = False from by simp, if_true, if_false]
      exact hshift_t
    | hold =>
      simp only [show (PKey.hold = PKey.shift) = False from by simp,
        show (PKey.hold = PKey.hold) = True from by simp, if_true, if_false]
      split
      · exact stop_recording_inv engine now _ h
      · split
        · exact start_recording_inv _ h
        · exact start_recording_inv _ h
    | other =>
      simp only [show (PKey.other = PKey.shift) = False from by simp,
        show (PKey.other = PKey.hold) = False from by simp, if_false]
      exact h
  | release k =>
    show Inv (on_release engine now k s)
    unfold on_release
    cases k with
    | shift =>
      simp only [show (PKey.shift = PKey.shift) = True from by simp,
        show (PKey.shift = PKey.hold) = False from by simp, if_true,
        false_and, if_false]
      exact hshift_f
    | hold =>
      simp only [show (PKey.hold = PKey.shift) = False from by simp,
        show (PKey.hold = PKey.hold) = True from by simp, if_false, true_and]
      split
      · exact stop_recording_inv engine now _ h
      · exact h
    | other =>
      simp only [show (PKey.other = PKey.shift) = False from by simp,
        show (PKey.other = PKey.hold) = False from by simp, false_and, if_false]
      exact h

theorem run_inv (engine : List ℚ → Except String String) (now : String)
    (es : List Event) (s : AppState) (h : Inv s) :
    Inv (run engine now es s) := by
  induction es generalizing s with
  | nil => exact h
  | cons e es ih =>
    show Inv (run engine now es (step engine now e s))
    exact ih _ (step_inv engine now e s h)

theorem mode_idle (s : AppState) (h : s.recording = false) :
    mode s = Mode.Idle := by
  unfold mode
  rw [h]
  simp

theorem mode_momentary_iff (s : AppState) :
    mode s = Mode.Momentary ↔ s.recording = true ∧ s.toggle_mode = false := by
  unfold mode
  cases hr : s.recording <;> cases ht : s.toggle_mode <;> simp

theorem mode_eq_momentary (s : AppState) (hr : s.recording = true)
    (ht : s.toggle_mode = false) : mode s = Mode.Momentary :=
  (mode_momentary_iff s).2 ⟨hr, ht⟩

theorem start_recording_already (d : Bool) (s : AppState)
    (h : s.recording = true) :
    start_recording d s = (StartOutcome.alreadyRecording, s) := by
  unfold start_recording
  rw [h]
  simp

theorem on_press_shift (engine : List ℚ → Except String String) (now : String)
    (s : AppState) :
    on_press engine now PKey.shift s = { s with shift_held := true } := by
  unfold on_press
  simp

theorem on_press_other (engine : List ℚ → Except String String) (now : String)
    (s : AppState) : on_press engine now PKey.other s = s := by
  unfold on_press
  simp

theorem on_press_hold_toggle (engine : List ℚ → Except String String)
    (now : String) (s : AppState) (ht : s.toggle_mode = true) :
    on_press engine now PKey.hold s =
      (stop_recording engine now { s with toggle_mode := false }).1 := by
  unfold on_press
  simp [ht]

theorem on_press_hold_shift (engine : List ℚ → Except String String)
    (now : String) (s : AppState) (ht : s.toggle_mode = false)
    (hs : s.shift_held = true) :
    on_press engine now PKey.hold s =
      (start_recording true { s with toggle_mode := true }).2 := by
  unfold on_press
  simp [ht, hs]

theorem on_press_hold_plain (engine : List ℚ → Except String String)
    (now : String) (s : AppState) (ht : s.toggle_mode = false)
    (hs : s.shift_held = false) :
    on_press engine now PKey.hold s = (start_recording true s).2 := by
  unfold on_press
  simp [ht, hs]

theorem on_release_shift (engine : List ℚ → Except String String)
    (now : String) (s : AppState) :
    on_release engine now PKey.shift s = { s with shift_held := false } := by
  unfold on_release
  simp

theorem on_release_other (engine : List ℚ → Except String String)
    (now : String) (s : AppState) :
    on_release engine now PKey.other s = s := by
  unfold on_release
  simp

theorem on_release_hold_toggle (engine : List ℚ → Except String String)
    (now : String) (s : AppState) (ht : s.toggle_mode = true) :
    on_release engine now PKey.hold s = s := by
  unfold on_release
  simp [ht]

theorem on_release_hold_shift (engine : List ℚ → Except String String)
    (now : String) (s : AppState) (hs : s.shift_held = true) :
    on_release engine now PKey.hold s = s := by
  unfold on_release
  simp [hs]

theorem on_release_hold_stop (engine : List ℚ → Except String String)
    (now : String) (s : AppState) (ht : s.toggle_mode = false)
    (hs : s.shift_held = false) :
    on_release engine now PKey.hold s = (stop_recording engine now s).1 := by
  unfold on_release
  simp [ht, hs]

theorem meanSq_recOK : meanSq (List.replicate 8000 (1 : ℚ)) = 1 := by
  unfold meanSq
  rw [sqSum_replicate, List.length_replicate]
  norm_num

theorem recOK_flatten : recOK.audio_data.flatten = List.replicate 8000 (1 : ℚ) := by
  show ([List.replicate 8000 (1 : ℚ)]).flatten = List.replicate 8000 (1 : ℚ)
  rw [List.flatten_cons, List.flatten_nil, List.append_nil]

theorem recOK_dur : ¬ ((recOK.audio_data.flatten.length : ℚ) / SAMPLE_RATE <
    MIN_AUDIO_DURATION) := by
  rw [recOK_flatten, List.length_replicate]
  norm_num [SAMPLE_RATE, MIN_AUDIO_DURATION]

theorem recOK_energy : ¬ (meanSq recOK.audio_data.flatten <
    MIN_AUDIO_ENERGY ^ 2) := by
  rw [recOK_flatten, meanSq_recOK]
  norm_num [MIN_AUDIO_ENERGY]

theorem stop_recording_emptyBuffer_shape
    (engine : List ℚ → Except String String) (now : String) (s : AppState)
    (h : s.recording = true) (he : s.audio_data.isEmpty = true) :
    stop_recording engine now s =
      ({ s with
          recording := false, streams := s.streams - 1,
          stops := s.stops + 1 },
        Except.ok StopResult.emptyBuffer, []) := by
  unfold stop_recording
  rw [h]
  simp only [show (true = false) = False from by simp, if_false]
  rw [if_pos (by simpa using he)]

theorem stop_recording_tooShort_shape
    (engine : List ℚ → Except String String) (now : String) (s : AppState)
    (h : s.recording = true) (hne : s.audio_data.isEmpty = false)
    (hshort : (s.audio_data.flatten.length : ℚ) / SAMPLE_RATE <
      MIN_AUDIO_DURATION) :
    stop_recording engine now s =
      ({ s with
          recording := false, streams := s.streams - 1,
          stops := s.stops + 1 },
        Except.ok StopResult.tooShort, []) := by
  unfold stop_recording
  rw [h]
  simp only [show (true = false) = False from by simp, if_false]
  rw [if_neg (by simpa using hne)]
  rw [if_pos (by simpa using hshort)]

theorem stop_recording_noSound_shape
    (engine : List ℚ → Except String String) (now : String) (s : AppState)
    (h : s.recording = true) (hne : s.audio_data.isEmpty = false)
    (hdur : ¬ ((s.audio_data.flatten.length : ℚ) / SAMPLE_RATE <
      MIN_AUDIO_DURATION))
    (hlt : meanSq s.audio_data.flatten < MIN_AUDIO_ENERGY ^ 2) :
    stop_recording engine now s =
      ({ s with
          recording := false, streams := s.streams - 1,
          stops := s.stops + 1 },
        Except.ok StopResult.noSound, []) := by
  unfold stop_recording
  rw [h]
  simp only [show (true = false) = False from by simp, if_false]
  rw [if_neg (by simpa using hne)]
  rw [if_neg (by simpa using hdur)]
  rw [if_pos (by simpa using hlt)]

theorem stop_recording_error_shape
    (engine : List ℚ → Except String String) (now : String) (s : AppState)
    (h : s.recording = true) (hne : s.audio_data.isEmpty = false)
    (hdur : ¬ ((s.audio_data.flatten.length : ℚ) / SAMPLE_RATE <
      MIN_AUDIO_DURATION))
    (hen : ¬ (meanSq s.audio_data.flatten < MIN_AUDIO_ENERGY ^ 2))
    (err : String) (hraw : engine s.audio_data.flatten = Except.error err) :
    stop_recording engine now s =
      ({ s with
          recording := false, streams := s.streams - 1,
          stops := s.stops + 1 },
        Except.error err, []) := by
  unfold stop_recording
  rw [h]
  simp only [show (true = false) = False from by simp, if_false]
  rw [if_neg (by simpa using hne)]
  rw [if_neg (by simpa using hdur)]
  rw [if_neg (by simpa using hen)]
  rw [show engine ({ s with
      recording := false, streams := s.streams - 1,
      stops := s.stops + 1 } : AppState).audio_data.flatten = Except.error err
    from hraw]

theorem stop_recording_accepted_shape (engine : List ℚ → Except String String)
    (now : String) (s : AppState) (h : s.recording = true)
    (hne : s.audio_data.isEmpty = false)
    (hdur : ¬ ((s.audio_data.flatten.length : ℚ) / SAMPLE_RATE <
      MIN_AUDIO_DURATION))
    (hen : ¬ (meanSq s.audio_data.flatten < MIN_AUDIO_ENERGY ^ 2))
    (raw : String) (hraw : engine s.audio_data.flatten = Except.ok raw) :
    stop_recording engine now s =
      (if pyStrip raw = "" then
        ({ s with
            recording := false, streams := s.streams - 1,
            stops := s.stops + 1 },
          Except.ok StopResult.noSpeech, [])
      else
        ({ s with
            recording := false, streams := s.streams - 1,
            stops := s.stops + 1,
            history := ((now, pyStrip raw) :: s.history).take MAX_HISTORY },
          Except.ok (StopResult.pasted (pyStrip raw)),
          [Emission.histAppend now (pyStrip raw),
            Emission.clipboardSet (pyStrip raw), Emission.pasteKeystroke])) := by
  unfold stop_recording
  rw [h]
  simp only [show (true = false) = False from by simp, if_false]
  rw [if_neg (by simpa using hne)]
  rw [if_neg (by simpa using hdur)]
  rw [if_neg (by simpa using hen)]
  rw [show engine ({ s with
      recording := false, streams := s.streams - 1,
      stops := s.stops + 1 } : AppState).audio_data.flatten = Except.ok raw
    from hraw]

/- Claim theorems. -/

/-- C1 counterexample: the event sequence hold-press, shift-press,
hold-press moves the mode from Momentary directly to Continuous without
passing through Idle (the second hold press finds toggle_mode false and
shift_held true, sets toggle_mode true, and start_recording is a no-op
because recording is already true), so the claimed transition relation is
violated by the code. -/
theorem C1_momentary_to_continuous :
    mode (run engO "" [Event.press PKey.hold, Event.press PKey.shift]
        initState) = Mode.Momentary
    ∧ mode (step engO "" (Event.press PKey.hold)
        (run engO "" [Event.press PKey.hold, Event.press PKey.shift]
          initState)) = Mode.Continuous := by
  decide

/-- C1 (amended): the mode transitions along Idle to Momentary to Idle and
Idle to Continuous to Idle, except that a hold-key press while shift is
held during a Momentary recording moves the mode directly from Momentary
to Continuous; from Momentary the next mode is Continuous exactly when the
event is a hold-key press with shift held at that moment; no event ever
moves the mode from Continuous directly to Momentary (from Continuous
every event leads to Continuous or Idle), and at most one capture session
is active at any time (at most one open input stream in every state
reachable from the initial state). -/
theorem C1_transitions (engine : List ℚ → Except String String)
    (now : String) (s : AppState) (e : Event) (es : List Event) :
    (mode s = Mode.Continuous →
      mode (step engine now e s) = Mode.Continuous ∨
      mode (step engine now e s) = Mode.Idle)
    ∧ (mode s = Mode.Momentary →
      (mode (step engine now e s) = Mode.Continuous ↔
        e = Event.press PKey.hold ∧ s.shift_held = true))
    ∧ (run engine now es initState).streams ≤ 1 := by
  refine ⟨?_, ?_, ?_⟩
  · intro h
    obtain ⟨hr, ht⟩ := (mode_continuous_iff s).1 h
    cases e with
    | press k =>
      cases k with
      | shift =>
        left
        show mode (on_press engine now PKey.shift s) = Mode.Continuous
        rw [on_press_shift]
        exact (mode_continuous_iff _).2 ⟨hr, ht⟩
      | hold =>
        right
        show mode (on_press engine now PKey.hold s) = Mode.Idle
        rw [on_press_hold_toggle engine now s ht]
        exact mode_idle _
          (stop_recording_flags engine now { s with toggle_mode := false } hr).1
      | other =>
        left
        show mode (on_press engine now PKey.other s) = Mode.Continuous
        rw [on_press_other]
        exact h
    | release k =>
      cases k with
      | shift =>
        left
        show mode (on_release engine now PKey.shift s) = Mode.Continuous
        rw [on_release_shift]
        exact (mode_continuous_iff _).2 ⟨hr, ht⟩
      | hold =>
        left
        show mode (on_release engine now PKey.hold s) = Mode.Continuous
        rw [on_release_hold_toggle engine now s ht]
        exact h
      | other =>
        left
        show mode (on_release engine now PKey.other s) = Mode.Continuous
        rw [on_release_other]
        exact h
  · intro h
    obtain ⟨hr, ht⟩ := (mode_momentary_iff s).1 h
    cases e with
    | press k =>
      cases k with
      | shift =>
        have hm : mode (step engine now (Event.press PKey.shift) s) =
            Mode.Momentary := by
          show mode (on_press engine now PKey.shift s) = Mode.Momentary
          rw [on_press_shift]
          exact mode_eq_momentary _ hr ht
        rw [hm]
        simp
      | hold =>
        cases hs : s.shift_held
        · have hm : mode (step engine now (Event.press PKey.hold) s) =
              Mode.Momentary := by
            show mode (on_press engine now PKey.hold s) = Mode.Momentary
            rw [on_press_hold_plain engine now s ht hs,
              start_recording_already true s hr]
            exact mode_eq_momentary _ hr ht
          rw [hm]
          simp [hs]
        · have hm : mode (step engine now (Event.press PKey.hold) s) =
              Mode.Continuous := by
            show mode (on_press engine now PKey.hold s) = Mode.Continuous
            rw [on_press_hold_shift engine now s ht hs,
              start_recording_already true { s with toggle_mode := true } hr]
            exact (mode_continuous_iff _).2 ⟨hr, rfl⟩
          rw [hm]
          simp [hs]
      | other =>
        have hm : mode (step engine now (Event.press PKey.other) s) =
            Mode.Momentary := by
          show mode (on_press engine now PKey.other s) = Mode.Momentary
          rw [on_press_other]
          exact mode_eq_momentary _ hr ht
        rw [hm]
        simp
    | release k =>
      cases k with
      | shift =>
        have hm : mode (step engine now (Event.release PKey.shift) s) =
            Mode.Momentary := by
          show mode (on_release engine now PKey.shift s) = Mode.Momentary
          rw [on_release_shift]
          exact mode_eq_momentary _ hr ht
        rw [hm]
        simp
      | hold =>
        cases hs : s.shift_held
        · have hm : mode (step engine now (Event.release PKey.hold) s) =
              Mode.Idle := by
            show mode (on_release engine now PKey.hold s) = Mode.Idle
            rw [on_release_hold_stop engine now s ht hs]
            exact mode_idle _ (stop_recording_flags engine now s hr).1
          rw [hm]
          simp
        · have hm : mode (step engine now (Event.release PKey.hold) s) =
              Mode.Momentary := by
            show mode (on_release engine now PKey.hold s) = Mode.Momentary
            rw [on_release_hold_shift engine now s hs]
            exact mode_eq_momentary _ hr ht
          rw [hm]
          simp
      | other =>
        have hm : mode (step engine now (Event.release PKey.other) s) =
            Mode.Momentary := by
          show mode (on_release engine now PKey.other s) = Mode.Momentary
          rw [on_release_other]
          exact mode_eq_momentary _ hr ht
        rw [hm]
        simp
  · have hinv := run_inv engine now es initState (by simp [Inv, initState])
    unfold Inv at hinv
    rw [hinv]
    split <;> simp

/-- C1 witness: the amended transition theorem applied at concrete states:
from a concrete Continuous state a hold press leads to Continuous or Idle,
from a concrete Momentary state with shift held a hold press leads to
Continuous (the Momentary-origin characterization applied left to right),
and a concrete run from the initial state keeps at most one session. -/
theorem C1_transitions_witness :
    (mode (step engO "" (Event.press PKey.hold) contSt) = Mode.Continuous ∨
      mode (step engO "" (Event.press PKey.hold) contSt) = Mode.Idle)
    ∧ mode (step engO "" (Event.press PKey.hold) momSt) = Mode.Continuous
    ∧ (run engO "" [Event.press PKey.hold] initState).streams ≤ 1 :=
  ⟨(C1_transitions engO "" contSt (Event.press PKey.hold)
      [Event.press PKey.hold]).1 (by decide),
    ((C1_transitions engO "" momSt (Event.press PKey.hold)
      [Event.press PKey.hold]).2.1 (by decide)).mpr ⟨rfl, rfl⟩,
    (C1_transitions engO "" contSt (Event.press PKey.hold)
      [Event.press PKey.hold]).2.2⟩

/-- C2: when opening the input stream fails (deviceOk = false), the source
has already set recording = True and clears the buffer before the failing
open, and there is no exception handler, so the mode does NOT remain Idle
and the state is NOT unchanged: the failed start leaves the globals
mutated, contradicting the claim.  This theorem evaluates the code at the
failing input. -/
theorem C2_device_failure_not_idle :
    (start_recording false initState).1 = StartOutcome.deviceError
    ∧ ((start_recording false initState).2).recording = true
    ∧ mode ((start_recording false initState).2) ≠ Mode.Idle
    ∧ (start_recording false initState).2 ≠ initState := by
  decide

/-- C4: start_recording is idempotent.  From any state satisfying the
session-count invariant, calling start twice with no intervening stop
leaves exactly one open capture session, the second call returns via the
early AlreadyRecording guard, and the second call changes nothing. -/
theorem C4_start_idempotent (s : AppState)
    (h : s.streams = if s.recording then 1 else 0) :
    (start_recording true ((start_recording true s).2)).2 =
      (start_recording true s).2
    ∧ (start_recording true ((start_recording true s).2)).1 =
      StartOutcome.alreadyRecording
    ∧ ((start_recording true s).2).streams = 1
    ∧ ((start_recording true s).2).recording = true := by
  cases hr : s.recording
  · have h0 : s.streams = 0 := by
      rw [hr] at h
      simpa using h
    unfold start_recording
    simp [hr, h0]
  · have h1 : s.streams = 1 := by
      rw [hr] at h
      simpa using h
    unfold start_recording
    simp [hr, h1]

/-- C4 witness: double start from the initial state. -/
theorem C4_start_idempotent_witness :
    (start_recording true ((start_recording true initState).2)).2 =
      (start_recording true initState).2
    ∧ (start_recording true ((start_recording true initState).2)).1 =
      StartOutcome.alreadyRecording
    ∧ ((start_recording true initState).2).streams = 1
    ∧ ((start_recording true initState).2).recording = true :=
  C4_start_idempotent initState (by decide)

/-- C5: in Continuous mode a hold-key press stops (the stop counter rises
by one and the mode returns to Idle) regardless of shift, a hold-key
release leaves the state exactly unchanged, and in the continuous scenario
(shift press, hold press, hold release, hold press) the final mode is Idle
with stop triggered exactly once. -/
theorem C5_continuous_stop (engine : List ℚ → Except String String)
    (now : String) (s : AppState) (h : mode s = Mode.Continuous) :
    mode (step engine now (Event.press PKey.hold) s) = Mode.Idle
    ∧ (step engine now (Event.press PKey.hold) s).stops = s.stops + 1
    ∧ step engine now (Event.release PKey.hold) s = s
    ∧ (mode (run engine now [Event.press PKey.shift, Event.press PKey.hold]
          initState) = Mode.Continuous
      ∧ mode (run engine now [Event.press PKey.shift, Event.press PKey.hold,
          Event.release PKey.hold] initState) = Mode.Continuous
      ∧ mode (run engine now [Event.press PKey.shift, Event.press PKey.hold,
          Event.release PKey.hold, Event.press PKey.hold] initState) = Mode.Idle
      ∧ (run engine now [Event.press PKey.shift, Event.press PKey.hold,
          Event.release PKey.hold, Event.press PKey.hold] initState).stops = 1) := by
  obtain ⟨hr, ht⟩ := (mode_continuous_iff s).1 h
  refine ⟨?_, ?_, ?_, ?_, ?_, ?_, ?_⟩
  · show mode (on_press engine now PKey.hold s) = Mode.Idle
    rw [on_press_hold_toggle engine now s ht]
    exact mode_idle _
      (stop_recording_flags engine now { s with toggle_mode := false } hr).1
  · show (on_press engine now PKey.hold s).stops = s.stops + 1
    rw [on_press_hold_toggle engine now s ht]
    exact (stop_recording_flags engine now
      { s with toggle_mode := false } hr).2.2.2.2.1
  · show on_release engine now PKey.hold s = s
    exact on_release_hold_toggle engine now s ht
  · rfl
  · rfl
  · rfl
  · rfl

/-- C3: the source has no try/except around model.transcribe, so when the
engine errors on a buffer that passed both gates the error propagates out
of stop_recording uncaught (modelled by the Except.error outcome) instead
of being surfaced as a rejected result with accepted = false; no result
event is emitted, and because the recording flag was cleared before the
engine call the system does remain armed for the next hold-key press.
This theorem evaluates the code at a failing input (a buffer of 8000 unit
samples and an engine that raises). -/
theorem C3_engine_error_uncaught :
    (stop_recording (fun _ => Except.error "boom") "n" recOK).2.1 =
      Except.error "boom"
    ∧ ((stop_recording (fun _ => Except.error "boom") "n" recOK).1).recording
      = false
    ∧ (stop_recording (fun _ => Except.error "boom") "n" recOK).2.2 = [] := by
  rw [stop_recording_error_shape (fun _ => Except.error "boom") "n" recOK rfl
    rfl recOK_dur recOK_energy "boom" rfl]
  exact ⟨rfl, rfl, rfl⟩

/-- C6: any buffer whose total sample count divided by the sample rate is
below MIN_AUDIO_DURATION is rejected by the duration gate of
stop_recording, regardless of its amplitude and of the engine. -/
theorem C6_duration_gate (engine : List ℚ → Except String String)
    (now : String) (s : AppState) (h : s.recording = true)
    (hshort : (s.audio_data.flatten.length : ℚ) / SAMPLE_RATE <
      MIN_AUDIO_DURATION) :
    (resultOf (stop_recording engine now s).2.1).accepted = false := by
  cases he : s.audio_data.isEmpty
  · rw [stop_recording_tooShort_shape engine now s h he hshort]
    rfl
  · rw [stop_recording_emptyBuffer_shape engine now s h he]
    rfl

/-- C6 witness: a 0.3 s buffer (4800 samples of amplitude 1 at 16 kHz) is
rejected. -/
theorem C6_duration_gate_witness :
    (resultOf (stop_recording engO "n" recShort).2.1).accepted = false :=
  C6_duration_gate engO "n" recShort rfl (by
    norm_num [recShort, initState, SAMPLE_RATE, MIN_AUDIO_DURATION,
      List.flatten_cons, List.flatten_nil, List.append_nil,
      List.length_replicate])

/-- C7: a buffer of pure zero samples, of any length, is rejected by the
gated pipeline (its mean square is 0, below the energy threshold, and the
shorter cases fall to the empty-buffer or duration gates first), and the
engine is never invoked: the whole stop_recording outcome is independent of
the engine. -/
theorem C7_energy_gate (engine engine2 : List ℚ → Except String String)
    (now : String) (s : AppState) (h : s.recording = true)
    (hz : ∀ x ∈ s.audio_data.flatten, x = (0 : ℚ)) :
    (resultOf (stop_recording engine now s).2.1).accepted = false
    ∧ stop_recording engine now s = stop_recording engine2 now s := by
  have hms : meanSq s.audio_data.flatten = 0 := by
    unfold meanSq
    rw [sqSum_eq_zero _ hz]
    simp
  have hlt : meanSq s.audio_data.flatten < MIN_AUDIO_ENERGY ^ 2 := by
    rw [hms]
    norm_num [MIN_AUDIO_ENERGY]
  cases he : s.audio_data.isEmpty
  · by_cases hd : (s.audio_data.flatten.length : ℚ) / SAMPLE_RATE <
      MIN_AUDIO_DURATION
    · constructor
      · rw [stop_recording_tooShort_shape engine now s h he hd]
        rfl
      · rw [stop_recording_tooShort_shape engine now s h he hd,
          stop_recording_tooShort_shape engine2 now s h he hd]
    · constructor
      · rw [stop_recording_noSound_shape engine now s h he hd hlt]
        rfl
      · rw [stop_recording_noSound_shape engine now s h he hd hlt,
          stop_recording_noSound_shape engine2 now s h he hd hlt]
  · constructor
    · rw [stop_recording_emptyBuffer_shape engine now s h he]
      rfl
    · rw [stop_recording_emptyBuffer_shape engine now s h he,
        stop_recording_emptyBuffer_shape engine2 now s h he]

/-- C7 witness: a concrete all-zero buffer is rejected, with the outcome
identical under two different engines (one of which would raise). -/
theorem C7_energy_gate_witness :
    (resultOf (stop_recording engO "n" recZero).2.1).accepted = false
    ∧ stop_recording engO "n" recZero =
      stop_recording (fun _ => Except.error "x") "n" recZero :=
  C7_energy_gate engO (fun _ => Except.error "x") "n" recZero rfl (by decide)

/-- C8: for any buffer that passes both gates, an engine returning
"hello world" yields the result text "hello world" with accepted = true;
an engine output that strips to the empty string (empty or pure
whitespace) is rejected; and any accepted text equals the engine output
trimmed of surrounding whitespace. -/
theorem C8_roundtrip (now : String) (s : AppState) (h : s.recording = true)
    (hne : s.audio_data.isEmpty = false)
    (hdur : ¬ ((s.audio_data.flatten.length : ℚ) / SAMPLE_RATE <
      MIN_AUDIO_DURATION))
    (hen : ¬ (meanSq s.audio_data.flatten < MIN_AUDIO_ENERGY ^ 2)) :
    resultOf (stop_recording (fun _ => Except.ok "hello world") now s).2.1 =
      { text := "hello world", accepted := true }
    ∧ (∀ raw : String, pyStrip raw = "" →
        (resultOf (stop_recording (fun _ => Except.ok raw) now s).2.1).accepted
          = false)
    ∧ (∀ raw t : String,
        (stop_recording (fun _ => Except.ok raw) now s).2.1 =
          Except.ok (StopResult.pasted t) → t = pyStrip raw) := by
  have hshape := fun raw : String =>
    stop_recording_accepted_shape (fun _ => Except.ok raw) now s h hne hdur
      hen raw rfl
  refine ⟨?_, ?_, ?_⟩
  · rw [hshape "hello world", if_neg (by decide)]
    rfl
  · intro raw hraw0
    rw [hshape raw, if_pos hraw0]
    rfl
  · intro raw t hp
    rw [hshape raw] at hp
    by_cases hc : pyStrip raw = ""
    · rw [if_pos hc] at hp
      simp at hp
    · rw [if_neg hc] at hp
      simp at hp
      exact hp.symm

/-- C8 witness: the round trip at a concrete gate-passing buffer, for the
engine returning "hello world" and an engine returning pure whitespace. -/
theorem C8_roundtrip_witness :
    resultOf (stop_recording (fun _ => Except.ok "hello world") "n" recOK).2.1
      = { text := "hello world", accepted := true }
    ∧ (resultOf (stop_recording (fun _ => Except.ok "  ") "n" recOK).2.1).accepted
      = false := by
  have hc := C8_roundtrip "n" recOK rfl rfl recOK_dur recOK_energy
  exact ⟨hc.1, hc.2.1 "  " (by decide)⟩

/-- C5 witness: the continuous-stop theorem applied at a concrete
Continuous state. -/
theorem C5_continuous_stop_witness :
    mode (step engO "" (Event.press PKey.hold) contSt) = Mode.Idle
    ∧ (step engO "" (Event.press PKey.hold) contSt).stops = contSt.stops + 1
    ∧ step engO "" (Event.release PKey.hold) contSt = contSt
    ∧ (mode (run engO "" [Event.press PKey.shift, Event.press PKey.hold]
          initState) = Mode.Continuous
      ∧ mode (run engO "" [Event.press PKey.shift, Event.press PKey.hold,
          Event.release PKey.hold] initState) = Mode.Continuous
      ∧ mode (run engO "" [Event.press PKey.shift, Event.press PKey.hold,
          Event.release PKey.hold, Event.press PKey.hold] initState) = Mode.Idle
      ∧ (run engO "" [Event.press PKey.shift, Event.press PKey.hold,
          Event.release PKey.hold, Event.press PKey.hold] initState).stops = 1) :=
  C5_continuous_stop engO "" contSt (by decide)

/-- C9: for a completed recording, an accepted transcription emits exactly
the three result-sink effects in program order (history append, then
clipboard set, then the paste keystrokes — in particular the clipboard set
precedes the paste), prepends exactly one (timestamp, text) entry
newest-first to the history truncated at capacity MAX_HISTORY = 10, while
a rejected recording emits nothing and leaves the history untouched; the
history never exceeds capacity 10. -/
theorem C9_result_events (engine : List ℚ → Except String String)
    (now : String) (s : AppState) (h : s.recording = true) :
    (∀ t : String,
      (stop_recording engine now s).2.1 = Except.ok (StopResult.pasted t) →
        (stop_recording engine now s).2.2 =
          [Emission.histAppend now t, Emission.clipboardSet t,
            Emission.pasteKeystroke]
        ∧ ((stop_recording engine now s).1).history =
          ((now, t) :: s.history).take MAX_HISTORY)
    ∧ ((resultOf (stop_recording engine now s).2.1).accepted = false →
        (stop_recording engine now s).2.2 = []
        ∧ ((stop_recording engine now s).1).history = s.history)
    ∧ (s.history.length ≤ MAX_HISTORY →
        ((stop_recording engine now s).1).history.length ≤ MAX_HISTORY) := by
  cases he : s.audio_data.isEmpty
  · by_cases hd : (s.audio_data.flatten.length : ℚ) / SAMPLE_RATE <
      MIN_AUDIO_DURATION
    · rw [stop_recording_tooShort_shape engine now s h he hd]
      exact ⟨fun t ht => by simp at ht, fun _ => ⟨rfl, rfl⟩, fun hl => hl⟩
    · by_cases hen : meanSq s.audio_data.flatten < MIN_AUDIO_ENERGY ^ 2
      · rw [stop_recording_noSound_shape engine now s h he hd hen]
        exact ⟨fun t ht => by simp at ht, fun _ => ⟨rfl, rfl⟩, fun hl => hl⟩
      · cases hengine : engine s.audio_data.flatten with
        | error err =>
          rw [stop_recording_error_shape engine now s h he hd hen err hengine]
          exact ⟨fun t ht => by simp at ht, fun _ => ⟨rfl, rfl⟩, fun hl => hl⟩
        | ok raw =>
          rw [stop_recording_accepted_shape engine now s h he hd hen raw
            hengine]
          by_cases hstrip : pyStrip raw = ""
          · rw [if_pos hstrip]
            exact ⟨fun t ht => by simp at ht, fun _ => ⟨rfl, rfl⟩,
              fun hl => hl⟩
          · rw [if_neg hstrip]
            refine ⟨?_, ?_, ?_⟩
            · intro t ht
              have htt : pyStrip raw = t := by simpa using ht
              subst htt
              exact ⟨rfl, rfl⟩
            · intro hacc
              exact absurd hacc (by simp [resultOf])
            · intro hl
              show (((now, pyStrip raw) :: s.history).take
                MAX_HISTORY).length ≤ MAX_HISTORY
              rw [List.length_take]
              exact min_le_left _ _
  · rw [stop_recording_emptyBuffer_shape engine now s h he]
    exact ⟨fun t ht => by simp at ht, fun _ => ⟨rfl, rfl⟩, fun hl => hl⟩

/-- C9 witness: the result-event theorem applied at a concrete recording
state whose buffer is rejected (too short): zero result events and the
history unchanged and within capacity. -/
theorem C9_result_events_witness :
    ((stop_recording engO "n" recTiny).2.2 = []
      ∧ ((stop_recording engO "n" recTiny).1).history = recTiny.history)
    ∧ ((stop_recording engO "n" recTiny).1).history.length ≤ MAX_HISTORY := by
  have hshort : ((recTiny.audio_data.flatten.length : ℚ) / SAMPLE_RATE <
      MIN_AUDIO_DURATION) := by
    show ((([[(1 : ℚ)]]).flatten.length : ℚ) / SAMPLE_RATE <
      MIN_AUDIO_DURATION)
    norm_num [SAMPLE_RATE, MIN_AUDIO_DURATION]
  have hshape := stop_recording_tooShort_shape engO "n" recTiny rfl rfl hshort
  have hc := C9_result_events engO "n" recTiny rfl
  refine ⟨hc.2.1 ?_, hc.2.2 (by decide)⟩
  rw [hshape]
  rfl

theorem stop_recording_history_good (engine : List ℚ → Except String String)
    (now : String) (s : AppState) (h : s.history.all goodEntryB = true) :
    ((stop_recording engine now s).1).history.all goodEntryB = true := by
  cases hr : s.recording
  · rw [stop_recording_not_recording engine now s hr]
    exact h
  · cases he : s.audio_data.isEmpty
    · by_cases hd : (s.audio_data.flatten.length : ℚ) / SAMPLE_RATE <
        MIN_AUDIO_DURATION
      · rw [stop_recording_tooShort_shape engine now s hr he hd]
        exact h
      · by_cases hen : meanSq s.audio_data.flatten < MIN_AUDIO_ENERGY ^ 2
        · rw [stop_recording_noSound_shape engine now s hr he hd hen]
          exact h
        · cases hengine : engine s.audio_data.flatten with
          | error err =>
            rw [stop_recording_error_shape engine now s hr he hd hen err
              hengine]
            exact h
          | ok raw =>
            rw [stop_recording_accepted_shape engine now s hr he hd hen raw
              hengine]
            by_cases hstrip : pyStrip raw = ""
            · rw [if_pos hstrip]
              exact h
            · rw [if_neg hstrip]
              show (((now, pyStrip raw) :: s.history).take
                MAX_HISTORY).all goodEntryB = true
              rw [List.all_eq_true]
              intro p hp
              have hp' : p ∈ (now, pyStrip raw) :: s.history :=
                List.take_subset _ _ hp
              rcases List.mem_cons.mp hp' with hpc | hpm
              · subst hpc
                simp [goodEntryB, pyStrip_idem, hstrip]
              · rw [List.all_eq_true] at h
                exact h p hpm
    · rw [stop_recording_emptyBuffer_shape engine now s hr he]
      exact h

theorem step_history_good (engine : List ℚ → Except String String)
    (now : String) (e : Event) (s : AppState)
    (h : s.history.all goodEntryB = true) :
    ((step engine now e s).history.all goodEntryB) = true := by
  cases e with
  | press k =>
    cases k with
    | shift =>
      show ((on_press engine now PKey.shift s).history.all goodEntryB) = true
      rw [on_press_shift]
      exact h
    | hold =>
      show ((on_press engine now PKey.hold s).history.all goodEntryB) = true
      cases ht : s.toggle_mode
      · cases hs : s.shift_held
        · rw [on_press_hold_plain engine now s ht hs,
            (start_recording_fields true s).1]
          exact h
        · rw [on_press_hold_shift engine now s ht hs,
            (start_recording_fields true { s with toggle_mode := true }).1]
          exact h
      · rw [on_press_hold_toggle engine now s ht]
        exact stop_recording_history_good engine now _ h
    | other =>
      show ((on_press engine now PKey.other s).history.all goodEntryB) = true
      rw [on_press_other]
      exact h
  | release k =>
    cases k with
    | shift =>
      show ((on_release engine now PKey.shift s).history.all goodEntryB) = true
      rw [on_release_shift]
      exact h
    | hold =>
      show ((on_release engine now PKey.hold s).history.all goodEntryB) = true
      cases ht : s.toggle_mode
      · cases hs : s.shift_held
        · rw [on_release_hold_stop engine now s ht hs]
          exact stop_recording_history_good engine now s h
        · rw [on_release_hold_shift engine now s hs]
          exact h
      · rw [on_release_hold_toggle engine now s ht]
        exact h
    | other =>
      show ((on_release engine now PKey.other s).history.all goodEntryB) = true
      rw [on_release_other]
      exact h

/-- C10: the history invariant.  Every entry of a history in which all
entries have nonempty, fully stripped text keeps that shape across any key
event, any stop_recording call (entries are appended only on the accepted
branch, whose text is the nonempty strip of the engine output), and
clear_history; the initial history satisfies it trivially. -/
theorem C10_history_invariant (engine : List ℚ → Except String String)
    (now : String) (e : Event) (s : AppState)
    (h : s.history.all goodEntryB = true) :
    ((step engine now e s).history.all goodEntryB) = true
    ∧ (((stop_recording engine now s).1).history.all goodEntryB) = true
    ∧ ((clear_history s).history.all goodEntryB) = true
    ∧ (initState.history.all goodEntryB) = true :=
  ⟨step_history_good engine now e s h,
    stop_recording_history_good engine now s h, rfl, rfl⟩

/-- C10 witness: the invariant theorem applied at a concrete state with a
well-formed history entry. -/
theorem C10_history_invariant_witness :
    ((step engO "n" (Event.press PKey.other) histSt).history.all goodEntryB)
      = true
    ∧ (((stop_recording engO "n" histSt).1).history.all goodEntryB) = true
    ∧ ((clear_history histSt).history.all goodEntryB) = true
    ∧ (initState.history.all goodEntryB) = true :=
  C10_history_invariant engO "n" (Event.press PKey.other) histSt (by decide)

end VoiceDictator
